import Mathlib

/-!
Shallow embedding of the indicator, signal and portfolio core of the
stock-ai-technical-analyst repository.

Prices, indicator values and share quantities are modelled as exact rationals.
Where the Python/pandas code can produce IEEE special values (NaN from 0/0,
infinity from x/0 with x > 0) we use the `PFloat` carrier below, which follows
IEEE semantics for the operations the code performs.  Rounding of finite values
is not modelled: every claim under study only depends on exact zero tests of
sums/means of zeros and on the propagation of the special values, both of which
are exact in binary floating point as well.
-/

/-- Carrier for pandas float columns: a finite rational, plus the IEEE special
values positive infinity, negative infinity and NaN. -/
inductive PFloat where
  | num (q : ℚ)
  | inf
  | ninf
  | nan
deriving DecidableEq, Repr

namespace PFloat

/-- IEEE addition (sign of zeros ignored; all finite values exact). -/
def add : PFloat → PFloat → PFloat
  | nan, _ => nan
  | _, nan => nan
  | inf, ninf => nan
  | ninf, inf => nan
  | inf, _ => inf
  | _, inf => inf
  | ninf, _ => ninf
  | _, ninf => ninf
  | num a, num b => num (a + b)

/-- IEEE negation. -/
def neg : PFloat → PFloat
  | nan => nan
  | inf => ninf
  | ninf => inf
  | num a => num (-a)

/-- IEEE subtraction. -/
def sub (a b : PFloat) : PFloat := add a (neg b)

/-- IEEE division restricted to the cases the embedded code reaches: the
zeros appearing as divisors are positive zeros, so x/0 is +inf for x > 0,
-inf for x < 0 and NaN for x = 0. -/
def div : PFloat → PFloat → PFloat
  | nan, _ => nan
  | _, nan => nan
  | inf, inf => nan
  | inf, ninf => nan
  | ninf, inf => nan
  | ninf, ninf => nan
  | inf, num b => if b < 0 then ninf else inf
  | ninf, num b => if b < 0 then inf else ninf
  | num _, inf => num 0
  | num _, ninf => num 0
  | num a, num b =>
    if b = 0 then (if a = 0 then nan else if 0 < a then inf else ninf)
    else num (a / b)

/-- Comparison `x > t` against a finite threshold; NaN compares false. -/
def gtQ : PFloat → ℚ → Bool
  | num a, t => decide (t < a)
  | inf, _ => true
  | ninf, _ => false
  | nan, _ => false

/-- Comparison `x < t` against a finite threshold; NaN compares false. -/
def ltQ : PFloat → ℚ → Bool
  | num a, t => decide (a < t)
  | inf, _ => false
  | ninf, _ => true
  | nan, _ => false

/-- pandas `fillna v`: replace NaN by the finite value `v`. -/
def fillna (v : ℚ) : PFloat → PFloat
  | nan => num v
  | x => x

/-- Recognizer for NaN. -/
def isNan : PFloat → Bool
  | nan => true
  | _ => false

end PFloat

/-- The trailing window of width `w` ending at index `i` (shrinking at the
start of the series), as used by pandas `rolling(window=w, min_periods=1)`. -/
def windowSlice (xs : List ℚ) (i w : Nat) : List ℚ :=
  (xs.take (i + 1)).drop (i + 1 - w)

/-- Arithmetic mean of a list of rationals (0 for the empty list). -/
def listMean (l : List ℚ) : ℚ := l.sum / l.length

/-- pandas `rolling(window=w, min_periods=1).mean()` over a column with no
NaN entries: position `i` holds the mean of the last `min (i+1) w` values. -/
def rollingMean1 (xs : List ℚ) (w : Nat) : List ℚ :=
  (List.range xs.length).map fun i => listMean (windowSlice xs i w)

namespace IndicatorsService

/-- pandas `Series.diff()` of the price column: NaN at position 0, else the
difference with the previous price. -/
def priceDiff (prices : List ℚ) : List PFloat :=
  (List.range prices.length).map fun i =>
    if i = 0 then .nan else .num (prices.getD i 0 - prices.getD (i - 1) 0)

/-- `delta.where(delta > 0, 0)` — the gain column of `calculate_rsi`.
NaN compares false against 0, so position 0 becomes 0. -/
def rsi_gain (prices : List ℚ) : List ℚ :=
  (priceDiff prices).map fun d =>
    match d with
    | .num a => if 0 < a then a else 0
    | _ => 0

/-- `-delta.where(delta < 0, 0)` — the loss column of `calculate_rsi`. -/
def rsi_loss (prices : List ℚ) : List ℚ :=
  (priceDiff prices).map fun d =>
    match d with
    | .num a => if a < 0 then -a else 0
    | _ => 0

/-- `rs = gain / loss` with both operands the rolling means of the gain and
loss columns (IEEE division on the `PFloat` carrier). -/
def rs_list (prices : List ℚ) (window : Nat) : List PFloat :=
  List.zipWith (fun g l => PFloat.div (.num g) (.num l))
    (rollingMean1 (rsi_gain prices) window)
    (rollingMean1 (rsi_loss prices) window)

/-- `rsi = 100 - (100 / (1 + rs))`, before the NaN fill. -/
def rsi_raw (prices : List ℚ) (window : Nat) : List PFloat :=
  (rs_list prices window).map fun rs =>
    PFloat.sub (.num 100) (PFloat.div (.num 100) (PFloat.add (.num 1) rs))

/-- `IndicatorsService.calculate_rsi`: returns the NaN-filled RSI column and
the overbought (`rsi > 70`) / oversold (`rsi < 30`) flags, the flags being
computed before the fill exactly as in the source. -/
def calculate_rsi (prices : List ℚ) (window : Nat := 14) :
    List PFloat × List Bool × List Bool :=
  ((rsi_raw prices window).map (PFloat.fillna 50),
   (rsi_raw prices window).map (fun x => x.gtQ 70),
   (rsi_raw prices window).map (fun x => x.ltQ 30))

end IndicatorsService

/-- Python `min` over a nonempty list (0 for the empty list, unreachable). -/
def listMin : List ℚ → ℚ
  | [] => 0
  | x :: xs => xs.foldl min x

/-- Python `max` over a nonempty list (0 for the empty list, unreachable). -/
def listMax : List ℚ → ℚ
  | [] => 0
  | x :: xs => xs.foldl max x

/-- pandas `rolling(window=w).mean()` with the default strict `min_periods`:
positions before `w - 1` are NaN (`none`). -/
def rollingMeanStrict (xs : List ℚ) (w : Nat) : List (Option ℚ) :=
  (List.range xs.length).map fun i =>
    if i + 1 < w then none else some (listMean (windowSlice xs i w))

/-- Strict rolling mean over a column that may already contain NaN entries:
a window that contains a NaN, or that is not yet full, yields NaN. -/
def rollingMeanStrictOpt (xs : List (Option ℚ)) (w : Nat) : List (Option ℚ) :=
  (List.range xs.length).map fun i =>
    if i + 1 < w then none
    else
      let win := (xs.take (i + 1)).drop (i + 1 - w)
      if win.all Option.isSome then some (listMean (win.map (fun o => o.getD 0)))
      else none

namespace MomentumIndicatorsService

/-- The raw `%K` values of `MomentumIndicatorsService.calculate_stochastic`:
for each `i` from `window - 1` on, 50 when the window's high/low range is
zero, else `(price - lowestLow) / range * 100`. -/
def stoch_k_raw (prices : List ℚ) (window : Nat) : List ℚ :=
  (List.range' (window - 1) (prices.length - (window - 1))).map fun i =>
    let lowest_low := listMin (windowSlice prices i window)
    let highest_high := listMax (windowSlice prices i window)
    if highest_high - lowest_low = 0 then 50
    else (prices.getD i 0 - lowest_low) / (highest_high - lowest_low) * 100

/-- `MomentumIndicatorsService.calculate_stochastic`: raw `%K` from the price
window, then two strict rolling means (which introduce NaN at the head);
short inputs short-circuit exactly as in the source. -/
def calculate_stochastic (prices : List ℚ) (window : Nat := 14)
    (smooth_k : Nat := 3) (smooth_d : Nat := 3) :
    List (Option ℚ) × List (Option ℚ) :=
  if prices.length < window then ([], [])
  else
    let k_line := stoch_k_raw prices window
    if k_line.length < smooth_k then (k_line.map some, [])
    else
      let k_smooth := rollingMeanStrict k_line smooth_k
      if k_smooth.length < smooth_d then (k_smooth, [])
      else (k_smooth, rollingMeanStrictOpt k_smooth smooth_d)

/-- `MomentumIndicatorsService.calculate_williams_r`: for each `i` from
`window - 1` on, -50 when the window's high/low range is zero, else
`-100 * (highestHigh - close) / range`. -/
def calculate_williams_r (highs lows closes : List ℚ) (window : Nat := 14) :
    List ℚ :=
  if closes.length < window then []
  else
    (List.range' (window - 1) (closes.length - (window - 1))).map fun i =>
      let highest_high := listMax (windowSlice highs i window)
      let lowest_low := listMin (windowSlice lows i window)
      if highest_high - lowest_low = 0 then -50
      else -100 * ((highest_high - closes.getD i 0) / (highest_high - lowest_low))

/-- Typical price `(high + low + close) / 3` at index `j`. -/
def typicalAt (highs lows closes : List ℚ) (j : Nat) : ℚ :=
  (highs.getD j 0 + lows.getD j 0 + closes.getD j 0) / 3

/-- The window SMA of typical prices used by `calculate_cci` at index `i`. -/
def cci_sma (highs lows closes : List ℚ) (window i : Nat) : ℚ :=
  (((List.range' (i + 1 - window) window).map
    (typicalAt highs lows closes)).sum) / window

/-- The window mean absolute deviation used by `calculate_cci` at index `i`. -/
def cci_mad (highs lows closes : List ℚ) (window i : Nat) : ℚ :=
  (((List.range' (i + 1 - window) window).map fun j =>
    |typicalAt highs lows closes j - cci_sma highs lows closes window i|).sum) / window

/-- `MomentumIndicatorsService.calculate_cci`: for each `i` from `window - 1`
on, 0 when the mean absolute deviation is zero, else
`(typicalPrice - sma) / (0.015 * mad)`. -/
def calculate_cci (highs lows closes : List ℚ) (window : Nat := 20) : List ℚ :=
  if closes.length < window then []
  else
    (List.range' (window - 1) (closes.length - (window - 1))).map fun i =>
      let tp := typicalAt highs lows closes i
      let sma := cci_sma highs lows closes window i
      let mad := cci_mad highs lows closes window i
      if mad = 0 then 0 else (tp - sma) / (3 / 200 * mad)

end MomentumIndicatorsService

namespace VolumeIndicatorsService

/-- Inner loop of `calculate_obv`: walk the remaining prices and volumes,
carrying the previous price and the running OBV value. -/
def obvGo (prev : ℚ) (acc : ℤ) : List ℚ → List ℤ → List ℤ
  | p :: ps, v :: vs =>
    let acc' := if prev < p then acc + v else if p < prev then acc - v else acc
    acc' :: obvGo p acc' ps vs
  | _, _ => []

/-- `VolumeIndicatorsService.calculate_obv`: empty on mismatched lengths or
fewer than two prices, else starts at the first volume and adds/subtracts
each volume according to the price direction. -/
def calculate_obv (prices : List ℚ) (volumes : List ℤ) : List ℤ :=
  if prices.length ≠ volumes.length ∨ prices.length < 2 then []
  else
    match prices, volumes with
    | p :: ps, v :: vs => v :: obvGo p v ps vs
    | _, _ => []

/-- The typical-price list of `calculate_mfi` (`zip` truncates to the
shortest input, as in Python). -/
def mfiTypical (highs lows closes : List ℚ) : List ℚ :=
  List.zipWith3 (fun h l c => (h + l + c) / 3) highs lows closes

/-- Positive money flow per step: `tp[i] * volume[i]` when the typical price
strictly rose, else 0 (index `i` runs from 1). -/
def positive_mf (tp : List ℚ) (volumes : List ℚ) : List ℚ :=
  (List.range' 1 (tp.length - 1)).map fun i =>
    if tp.getD (i - 1) 0 < tp.getD i 0 then tp.getD i 0 * volumes.getD i 0 else 0

/-- Negative money flow per step: `tp[i] * volume[i]` when the typical price
did not strictly rise, else 0. -/
def negative_mf (tp : List ℚ) (volumes : List ℚ) : List ℚ :=
  (List.range' 1 (tp.length - 1)).map fun i =>
    if tp.getD (i - 1) 0 < tp.getD i 0 then 0 else tp.getD i 0 * volumes.getD i 0

/-- `VolumeIndicatorsService.calculate_mfi`: window sums of positive and
negative money flow; when the negative sum is zero the value is 100, else
the RSI-style formula `100 - 100 / (1 + pos/neg)`. -/
def calculate_mfi (highs lows closes volumes : List ℚ) (window : Nat := 14) :
    List ℚ :=
  if closes.length < window + 1 then []
  else
    let tp := mfiTypical highs lows closes
    let pos := positive_mf tp volumes
    let neg := negative_mf tp volumes
    (List.range' (window - 1) (pos.length - (window - 1))).map fun i =>
      let pos_sum := (windowSlice pos i window).sum
      let neg_sum := (windowSlice neg i window).sum
      if neg_sum = 0 then 100 else 100 - 100 / (1 + pos_sum / neg_sum)

end VolumeIndicatorsService

inductive SigDir where
  | buy
  | sell
deriving DecidableEq, Repr

inductive SigStrength where
  | strong
  | medium
  | weak
deriving DecidableEq, Repr

/-- One row of the indicator-enriched DataFrame scanned by `SignalGenerator`;
`none` models a NaN (undefined warm-up) cell of the column. -/
structure Row where
  close : ℚ
  sma20 : Option ℚ
  sma50 : Option ℚ
  adx : Option ℚ
  adxPos : Option ℚ
  adxNeg : Option ℚ
deriving DecidableEq, Repr

/-- A generated signal; `idx` is the row position the signal was emitted at
(the source stores the DataFrame date of that row). -/
structure Signal where
  idx : Nat
  dir : SigDir
  name : String
  strength : SigStrength
  price : ℚ
deriving DecidableEq, Repr

namespace SignalGenerator

/-- Body of the `moving_average_crossover` loop at index `i`: with all four
SMA values non-NaN, a Golden Cross BUY when SMA 20 crosses above SMA 50, a
Death Cross SELL when it crosses below, else nothing. -/
def maCrossSignalAt (data : List Row) (i : Nat) : Option Signal :=
  match data[i - 1]?, data[i]? with
  | some r0, some r1 =>
    match r0.sma20, r1.sma20, r0.sma50, r1.sma50 with
    | some prev20, some curr20, some prev50, some curr50 =>
      if prev20 ≤ prev50 ∧ curr50 < curr20 then
        some ⟨i, .buy, "Golden Cross", .strong, r1.close⟩
      else if prev50 ≤ prev20 ∧ curr20 < curr50 then
        some ⟨i, .sell, "Death Cross", .strong, r1.close⟩
      else none
    | _, _, _, _ => none
  | _, _ => none

/-- `SignalGenerator.moving_average_crossover`: scan indices 1 to len-1 and
collect the emitted signals in order. -/
def moving_average_crossover (data : List Row) : List Signal :=
  (List.range' 1 (data.length - 1)).filterMap (maCrossSignalAt data)

/-- Body of the `trend_strength_signals` loop at index `i`: with ADX, +DI
and -DI non-NaN and ADX > 25, a BUY when +DI > -DI and +DI > 25 and the
previous ADX was ≤ 25 (non-NaN), the symmetric SELL for -DI. -/
def trendSignalAt (data : List Row) (i : Nat) : Option Signal :=
  match data[i]? with
  | some r1 =>
    match r1.adx, r1.adxPos, r1.adxNeg with
    | some adx, some adx_pos, some adx_neg =>
      if 25 < adx then
        if adx_neg < adx_pos ∧ 25 < adx_pos then
          match (data[i - 1]?).bind Row.adx with
          | some prev_adx =>
            if prev_adx ≤ 25 then
              some ⟨i, .buy, "Strong Uptrend Emerging", .strong, r1.close⟩
            else none
          | none => none
        else if adx_pos < adx_neg ∧ 25 < adx_neg then
          match (data[i - 1]?).bind Row.adx with
          | some prev_adx =>
            if prev_adx ≤ 25 then
              some ⟨i, .sell, "Strong Downtrend Emerging", .strong, r1.close⟩
            else none
          | none => none
        else none
      else none
    | _, _, _ => none
  | none => none

/-- `SignalGenerator.trend_strength_signals`: scan indices 1 to len-1. -/
def trend_strength_signals (data : List Row) : List Signal :=
  (List.range' 1 (data.length - 1)).filterMap (trendSignalAt data)

/-- The Golden Cross trigger of the claim: both rows exist, all four SMA
values are defined, and SMA 20 crosses from ≤ to > SMA 50 at `i`. -/
def goldenCrossAt (data : List Row) (i : Nat) : Prop :=
  1 ≤ i ∧ i < data.length ∧
  ∃ r0 r1 p20 c20 p50 c50,
    data[i - 1]? = some r0 ∧ data[i]? = some r1 ∧
    r0.sma20 = some p20 ∧ r1.sma20 = some c20 ∧
    r0.sma50 = some p50 ∧ r1.sma50 = some c50 ∧
    p20 ≤ p50 ∧ c50 < c20

/-- The Death Cross trigger of the claim: the symmetric downward crossing. -/
def deathCrossAt (data : List Row) (i : Nat) : Prop :=
  1 ≤ i ∧ i < data.length ∧
  ∃ r0 r1 p20 c20 p50 c50,
    data[i - 1]? = some r0 ∧ data[i]? = some r1 ∧
    r0.sma20 = some p20 ∧ r1.sma20 = some c20 ∧
    r0.sma50 = some p50 ∧ r1.sma50 = some c50 ∧
    p50 ≤ p20 ∧ c20 < c50

/-- The amended BUY trigger of the trend-strength rule: ADX crosses above 25
(previous value defined and ≤ 25) while +DI > -DI and additionally
+DI > 25. -/
def trendBuyAt (data : List Row) (i : Nat) : Prop :=
  1 ≤ i ∧ i < data.length ∧
  ∃ r1 adx adx_pos adx_neg prev_adx,
    data[i]? = some r1 ∧
    r1.adx = some adx ∧ r1.adxPos = some adx_pos ∧ r1.adxNeg = some adx_neg ∧
    (data[i - 1]?).bind Row.adx = some prev_adx ∧
    25 < adx ∧ prev_adx ≤ 25 ∧ adx_neg < adx_pos ∧ 25 < adx_pos

/-- The amended SELL trigger of the trend-strength rule: ADX crosses above
25 while -DI > +DI and additionally -DI > 25. -/
def trendSellAt (data : List Row) (i : Nat) : Prop :=
  1 ≤ i ∧ i < data.length ∧
  ∃ r1 adx adx_pos adx_neg prev_adx,
    data[i]? = some r1 ∧
    r1.adx = some adx ∧ r1.adxPos = some adx_pos ∧ r1.adxNeg = some adx_neg ∧
    (data[i - 1]?).bind Row.adx = some prev_adx ∧
    25 < adx ∧ prev_adx ≤ 25 ∧ adx_pos < adx_neg ∧ 25 < adx_neg

end SignalGenerator

/-- A signal as consumed by the recommendation aggregator: its date (an
abstract sortable stamp), direction and strength. -/
structure RecSignal where
  date : Nat
  dir : SigDir
  strength : SigStrength
deriving DecidableEq, Repr

namespace SignalGenerator

/-- The strength multiplier table `{STRONG: 2, MEDIUM: 1, WEAK: 0.5}`. -/
def strengthMultiplier : SigStrength → ℚ
  | .strong => 2
  | .medium => 1
  | .weak => 1 / 2

/-- `SignalGenerator.get_latest_signals`: stable sort by date, most recent
first, then take the first `n`. -/
def get_latest_signals (signals : List RecSignal) (n : Nat) : List RecSignal :=
  (signals.mergeSort (fun a b => decide (b.date ≤ a.date))).take n

/-- The buy side of the scoring loop of `get_current_recommendation`. -/
def buy_score (signals : List RecSignal) : ℚ :=
  (signals.map fun s =>
    if s.dir = .buy then strengthMultiplier s.strength else 0).sum

/-- The sell side of the scoring loop of `get_current_recommendation`. -/
def sell_score (signals : List RecSignal) : ℚ :=
  (signals.map fun s =>
    if s.dir = .sell then strengthMultiplier s.strength else 0).sum

inductive Verdict where
  | strongBuy
  | buy
  | strongSell
  | sell
  | hold
deriving DecidableEq, Repr

structure Recommendation where
  verdict : Verdict
  buyScore : ℚ
  sellScore : ℚ
  confidence : ℚ
deriving DecidableEq, Repr

/-- `SignalGenerator.get_current_recommendation`: score the 10 most recent
signals, pick the verdict through the threshold chain, and attach the
confidence `|buy - sell| / max (buy + sell) 1 * 100`. -/
def get_current_recommendation (signals : List RecSignal) : Recommendation :=
  let recent := get_latest_signals signals 10
  let b := buy_score recent
  let s := sell_score recent
  let verdict :=
    if s * (3 / 2) < b then Verdict.strongBuy
    else if s < b then Verdict.buy
    else if b * (3 / 2) < s then Verdict.strongSell
    else if b < s then Verdict.sell
    else Verdict.hold
  ⟨verdict, b, s, |b - s| / max (b + s) 1 * 100⟩

end SignalGenerator

/-- One position of the portfolio ledger. -/
structure Position where
  quantity : ℚ
  avg_price : ℚ
  first_purchase_date : String
deriving DecidableEq, Repr

inductive TxnType where
  | buy
  | sell
deriving DecidableEq, Repr

/-- One entry of the append-only transaction log; the profit fields are
present only on sells. -/
structure Txn where
  ttype : TxnType
  symbol : String
  quantity : ℚ
  price : ℚ
  date : String
  total : ℚ
  profit_loss : Option ℚ
  profit_loss_pct : Option ℚ
deriving DecidableEq, Repr

/-- The `PortfolioTracker` state: the positions dictionary (insertion
ordered, keyed by upper-cased symbol) and the transaction list. -/
structure Ledger where
  positions : List (String × Position)
  transactions : List Txn
deriving DecidableEq, Repr

/-- The failure outcomes of `remove_position`: the two `ValueError` raises
("No position found", "Insufficient shares") and the `ZeroDivisionError`
that the `profit_loss_pct` computation raises when the average price is
zero. -/
inductive SellErr where
  | noPosition
  | insufficientShares
  | zeroDivision
deriving DecidableEq, Repr

/-- Replace the value stored under `sym` (Python dict item assignment). -/
def updatePos (ps : List (String × Position)) (sym : String) (p : Position) :
    List (String × Position) :=
  ps.map fun e => if e.1 = sym then (e.1, p) else e

/-- Delete the entry stored under `sym` (Python `del`). -/
def erasePos (ps : List (String × Position)) (sym : String) :
    List (String × Position) :=
  ps.filter fun e => e.1 != sym

namespace PortfolioTracker

/-- `PortfolioTracker.add_position`: append the BUY transaction, then either
fold the lot into the existing position with the weighted average price or
insert a fresh position. -/
def add_position (led : Ledger) (symbol : String)
    (quantity purchase_price : ℚ) (purchase_date : String) : Ledger :=
  let symbol := symbol.toUpper
  let txn : Txn := ⟨.buy, symbol, quantity, purchase_price, purchase_date,
    quantity * purchase_price, none, none⟩
  let transactions := led.transactions ++ [txn]
  match led.positions.lookup symbol with
  | some pos =>
    let new_qty := pos.quantity + quantity
    let new_avg_price :=
      (pos.quantity * pos.avg_price + quantity * purchase_price) / new_qty
    ⟨updatePos led.positions symbol
      ⟨new_qty, new_avg_price, pos.first_purchase_date⟩, transactions⟩
  | none =>
    ⟨led.positions ++ [(symbol, ⟨quantity, purchase_price, purchase_date⟩)],
      transactions⟩

/-- `PortfolioTracker.remove_position`: fail before any mutation when the
symbol is not held or holds fewer shares than requested; otherwise append
the SELL transaction with its profit figures, decrement the quantity, and
delete the position when it reaches exactly zero.  The returned ledger is
the object state after the call, which on failure is the input unchanged;
in particular the `profit_loss_pct` division raises `ZeroDivisionError` at
a zero average price before the transaction append and the quantity
update, leaving the ledger untouched. -/
def remove_position (led : Ledger) (symbol : String)
    (quantity sale_price : ℚ) (sale_date : String) :
    Ledger × Except SellErr Txn :=
  let symbol := symbol.toUpper
  match led.positions.lookup symbol with
  | none => (led, .error .noPosition)
  | some pos =>
    if pos.quantity < quantity then (led, .error .insufficientShares)
    else if pos.avg_price = 0 then (led, .error .zeroDivision)
    else
      let profit_loss := (sale_price - pos.avg_price) * quantity
      let profit_loss_pct := (sale_price - pos.avg_price) / pos.avg_price * 100
      let txn : Txn := ⟨.sell, symbol, quantity, sale_price, sale_date,
        quantity * sale_price, some profit_loss, some profit_loss_pct⟩
      let transactions := led.transactions ++ [txn]
      let new_qty := pos.quantity - quantity
      let positions :=
        if new_qty = 0 then erasePos led.positions symbol
        else updatePos led.positions symbol
          ⟨new_qty, pos.avg_price, pos.first_purchase_date⟩
      (⟨positions, transactions⟩, .ok txn)

/-- A buy or sell request against the ledger. -/
inductive PortfolioOp where
  | add (symbol : String) (quantity price : ℚ) (date : String)
  | remove (symbol : String) (quantity price : ℚ) (date : String)
deriving DecidableEq, Repr

/-- Apply one operation (a failed sell leaves the state unchanged). -/
def applyOp (led : Ledger) : PortfolioOp → Ledger
  | .add sym q p d => add_position led sym q p d
  | .remove sym q p d => (remove_position led sym q p d).1

/-- Apply a sequence of operations left to right. -/
def runOps (led : Ledger) : List PortfolioOp → Ledger
  | [] => led
  | op :: ops => runOps (applyOp led op) ops

/-- All position quantities of the ledger are strictly positive. -/
def posQtyPos (led : Ledger) : Prop :=
  ∀ e ∈ led.positions, 0 < e.2.quantity

/-- The share count carried by an operation is positive. -/
def opQtyPos : PortfolioOp → Prop
  | .add _ q _ _ => 0 < q
  | .remove _ q _ _ => 0 < q

end PortfolioTracker

namespace PFloat

/-- IEEE multiplication (zero times infinity is NaN). -/
def mul : PFloat → PFloat → PFloat
  | nan, _ => nan
  | _, nan => nan
  | inf, inf => inf
  | inf, ninf => ninf
  | ninf, inf => ninf
  | ninf, ninf => inf
  | inf, num b => if b = 0 then nan else if 0 < b then inf else ninf
  | num a, inf => if a = 0 then nan else if 0 < a then inf else ninf
  | ninf, num b => if b = 0 then nan else if 0 < b then ninf else inf
  | num a, ninf => if a = 0 then nan else if 0 < a then ninf else inf
  | num a, num b => num (a * b)

end PFloat

namespace IndicatorsService

/-- pandas `rolling(window=w, min_periods=1).std()` (sample standard
deviation, `ddof = 1`): a window with a single observation yields NaN, a
fuller window the square root of the sample variance.  The square root is
kept abstract in `sqrtFn`; every property proved holds for any of its
implementations. -/
def rollingStd1 (sqrtFn : ℚ → ℚ) (xs : List ℚ) (w : Nat) : List PFloat :=
  (List.range xs.length).map fun i =>
    let win := windowSlice xs i w
    if win.length < 2 then .nan
    else .num (sqrtFn
      (((win.map fun x => (x - listMean win) ^ 2).sum) / ((win.length : ℚ) - 1)))

/-- `IndicatorsService.calculate_bollinger_bands`: `upper = sma + std * k`,
`lower = sma - std * k`, each band NaN-filled with 0 before returning; the
middle band is the shrinking-window SMA, which contains no NaN. -/
def calculate_bollinger_bands (sqrtFn : ℚ → ℚ) (prices : List ℚ)
    (window : Nat := 20) (num_std : ℚ := 2) :
    List PFloat × List ℚ × List PFloat :=
  let sma := rollingMean1 prices window
  let std := rollingStd1 sqrtFn prices window
  let upper_band :=
    List.zipWith (fun m s => PFloat.add (.num m) (s.mul (.num num_std))) sma std
  let lower_band :=
    List.zipWith (fun m s => PFloat.sub (.num m) (s.mul (.num num_std))) sma std
  (upper_band.map (PFloat.fillna 0), sma, lower_band.map (PFloat.fillna 0))

end IndicatorsService

lemma windowSlice_mem {xs : List ℚ} {i w : Nat} {x : ℚ}
    (hx : x ∈ windowSlice xs i w) : x ∈ xs :=
  List.mem_of_mem_take (List.mem_of_mem_drop hx)

lemma listMean_nonneg {l : List ℚ} (h : ∀ x ∈ l, 0 ≤ x) : 0 ≤ listMean l :=
  div_nonneg (List.sum_nonneg h) (Nat.cast_nonneg _)

lemma rollingMean1_length (xs : List ℚ) (w : Nat) :
    (rollingMean1 xs w).length = xs.length := by
  simp [rollingMean1]

lemma rollingMean1_getD (xs : List ℚ) (w i : Nat) (hi : i < xs.length) :
    (rollingMean1 xs w).getD i 0 = listMean (windowSlice xs i w) := by
  have hlen : i < (rollingMean1 xs w).length := by
    simpa [rollingMean1_length] using hi
  rw [List.getD_eq_getElem _ _ hlen]
  simp [rollingMean1]

lemma rollingMean1_nonneg {xs : List ℚ} (w i : Nat) (h : ∀ x ∈ xs, 0 ≤ x) :
    0 ≤ (rollingMean1 xs w).getD i 0 := by
  by_cases hi : i < xs.length
  · rw [rollingMean1_getD xs w i hi]
    exact listMean_nonneg fun x hx => h x (windowSlice_mem hx)
  · rw [List.getD_eq_default]
    · simpa [rollingMean1_length] using hi

lemma rsi_gain_nonneg (prices : List ℚ) :
    ∀ x ∈ IndicatorsService.rsi_gain prices, 0 ≤ x := by
  intro x hx
  simp only [IndicatorsService.rsi_gain, List.mem_map] at hx
  obtain ⟨d, -, rfl⟩ := hx
  cases d with
  | num a => dsimp only; split <;> [linarith; simp]
  | inf => simp
  | ninf => simp
  | nan => simp

lemma rsi_loss_nonneg (prices : List ℚ) :
    ∀ x ∈ IndicatorsService.rsi_loss prices, 0 ≤ x := by
  intro x hx
  simp only [IndicatorsService.rsi_loss, List.mem_map] at hx
  obtain ⟨d, -, rfl⟩ := hx
  cases d with
  | num a => dsimp only; split <;> [linarith; simp]
  | inf => simp
  | ninf => simp
  | nan => simp

lemma rsi_gain_length (prices : List ℚ) :
    (IndicatorsService.rsi_gain prices).length = prices.length := by
  simp [IndicatorsService.rsi_gain, IndicatorsService.priceDiff]

lemma rsi_loss_length (prices : List ℚ) :
    (IndicatorsService.rsi_loss prices).length = prices.length := by
  simp [IndicatorsService.rsi_loss, IndicatorsService.priceDiff]

lemma rsi_entry_eval (g l : ℚ) (hg : 0 ≤ g) (hl : 0 ≤ l) :
    PFloat.fillna 50
      (PFloat.sub (.num 100)
        (PFloat.div (.num 100) (PFloat.add (.num 1) (PFloat.div (.num g) (.num l))))) =
    if l = 0 then (if g = 0 then .num 50 else .num 100)
    else .num (100 - 100 / (1 + g / l)) := by
  by_cases hl0 : l = 0
  · subst hl0
    by_cases hg0 : g = 0
    · subst hg0
      simp [PFloat.div, PFloat.add, PFloat.sub, PFloat.neg, PFloat.fillna]
    · have hgpos : 0 < g := lt_of_le_of_ne hg (Ne.symm hg0)
      simp [PFloat.div, PFloat.add, PFloat.sub, PFloat.neg, PFloat.fillna,
        hg0, hgpos]
  · have hlpos : 0 < l := lt_of_le_of_ne hl (Ne.symm hl0)
    have hq : (0 : ℚ) ≤ g / l := div_nonneg hg hl
    have hne : (1 : ℚ) + g / l ≠ 0 := by positivity
    simp only [PFloat.div, PFloat.add, PFloat.sub, PFloat.neg, PFloat.fillna,
      if_neg hl0, if_neg hne]
    rw [sub_eq_add_neg]

lemma calculate_rsi_length (prices : List ℚ) (window : Nat) :
    (IndicatorsService.calculate_rsi prices window).1.length = prices.length := by
  simp [IndicatorsService.calculate_rsi, IndicatorsService.rsi_raw,
    IndicatorsService.rs_list, List.length_zipWith, rollingMean1_length,
    rsi_gain_length, rsi_loss_length]

lemma calculate_rsi_entry (prices : List ℚ) (window i : Nat)
    (hi : i < prices.length) :
    (IndicatorsService.calculate_rsi prices window).1.getD i .nan =
    PFloat.fillna 50
      (PFloat.sub (.num 100)
        (PFloat.div (.num 100) (PFloat.add (.num 1)
          (PFloat.div
            (.num ((rollingMean1 (IndicatorsService.rsi_gain prices) window).getD i 0))
            (.num ((rollingMean1 (IndicatorsService.rsi_loss prices) window).getD i 0)))))) := by
  have hfin : i < (IndicatorsService.calculate_rsi prices window).1.length := by
    simpa [calculate_rsi_length] using hi
  have hG : i < (rollingMean1 (IndicatorsService.rsi_gain prices) window).length := by
    simpa [rollingMean1_length, rsi_gain_length] using hi
  have hL : i < (rollingMean1 (IndicatorsService.rsi_loss prices) window).length := by
    simpa [rollingMean1_length, rsi_loss_length] using hi
  rw [List.getD_eq_getElem _ _ hfin, List.getD_eq_getElem _ _ hG,
    List.getD_eq_getElem _ _ hL]
  simp [IndicatorsService.calculate_rsi, IndicatorsService.rsi_raw,
    IndicatorsService.rs_list]

lemma obvGo_length : ∀ (ps : List ℚ) (vs : List ℤ) (p : ℚ) (a : ℤ),
    ps.length = vs.length →
    (VolumeIndicatorsService.obvGo p a ps vs).length = ps.length := by
  intro ps
  induction ps with
  | nil => intro vs p a h; cases vs <;> simp [VolumeIndicatorsService.obvGo]
  | cons p1 ps' ih =>
    intro vs p a h
    cases vs with
    | nil => simp at h
    | cons v1 vs' =>
      simp only [VolumeIndicatorsService.obvGo, List.length_cons]
      rw [ih vs' p1 _ (by simpa using h)]

lemma obvGo_rec : ∀ (ps : List ℚ) (vs : List ℤ) (p : ℚ) (a : ℤ) (i : Nat),
    i < ps.length → i < vs.length →
    (VolumeIndicatorsService.obvGo p a ps vs).getD i 0 =
      (a :: VolumeIndicatorsService.obvGo p a ps vs).getD i 0 +
      (if (p :: ps).getD i 0 < ps.getD i 0 then vs.getD i 0
       else if ps.getD i 0 < (p :: ps).getD i 0 then -(vs.getD i 0) else 0) := by
  intro ps
  induction ps with
  | nil => intro vs p a i h1 h2; simp at h1
  | cons p1 ps' ih =>
    intro vs p a i h1 h2
    cases vs with
    | nil => simp at h2
    | cons v1 vs' =>
      cases i with
      | zero =>
        simp only [VolumeIndicatorsService.obvGo, List.getD_cons_zero]
        split_ifs <;> omega
      | succ j =>
        have hj1 : j < ps'.length := by simpa using h1
        have hj2 : j < vs'.length := by simpa using h2
        simp only [VolumeIndicatorsService.obvGo, List.getD_cons_succ]
        exact ih vs' p1 _ j hj1 hj2

/-- C10: for equal-length price and volume lists with at least two elements,
`calculate_obv` has the input length, starts at the first volume, and each
later value moves by the step volume according to the price direction; on
mismatched lengths or fewer than two prices it is empty. -/
theorem calculate_obv_spec (prices : List ℚ) (volumes : List ℤ) :
    (prices.length = volumes.length → 2 ≤ prices.length →
      (VolumeIndicatorsService.calculate_obv prices volumes).length = prices.length ∧
      (VolumeIndicatorsService.calculate_obv prices volumes).getD 0 0 =
        volumes.getD 0 0 ∧
      ∀ i, 1 ≤ i → i < prices.length →
        (VolumeIndicatorsService.calculate_obv prices volumes).getD i 0 =
          (VolumeIndicatorsService.calculate_obv prices volumes).getD (i - 1) 0 +
          (if prices.getD (i - 1) 0 < prices.getD i 0 then volumes.getD i 0
           else if prices.getD i 0 < prices.getD (i - 1) 0 then -(volumes.getD i 0)
           else 0)) ∧
    (prices.length ≠ volumes.length ∨ prices.length < 2 →
      VolumeIndicatorsService.calculate_obv prices volumes = []) := by
  constructor
  · intro hlen h2
    cases prices with
    | nil => simp at h2
    | cons p0 ps =>
      cases volumes with
      | nil => simp at hlen
      | cons v0 vs =>
        have hguard : ¬((p0 :: ps).length ≠ (v0 :: vs).length ∨
            (p0 :: ps).length < 2) := by
          push_neg
          exact ⟨hlen, h2⟩
        have hps : ps.length = vs.length := by simpa using hlen
        refine ⟨?_, ?_, ?_⟩
        · simp only [VolumeIndicatorsService.calculate_obv, if_neg hguard]
          simp [obvGo_length ps vs p0 v0 hps]
        · simp only [VolumeIndicatorsService.calculate_obv, if_neg hguard]
          simp
        · intro i h1 hi
          obtain ⟨j, rfl⟩ : ∃ j, i = j + 1 := ⟨i - 1, by omega⟩
          have hj1 : j < ps.length := by simpa using hi
          have hj2 : j < vs.length := by rwa [← hps]
          simp only [VolumeIndicatorsService.calculate_obv, if_neg hguard,
            List.getD_cons_succ, Nat.add_sub_cancel]
          exact obvGo_rec ps vs p0 v0 j hj1 hj2
  · intro h
    simp only [VolumeIndicatorsService.calculate_obv, if_pos h]

/-- C10 witness: on prices `[1, 2]` and volumes `[3, 4]` the OBV column has
length 2, starts at 3, and steps up by 4 at position 1 since the price
rose. -/
theorem calculate_obv_spec_witness :
    (VolumeIndicatorsService.calculate_obv [(1 : ℚ), 2] [3, 4]).length = 2 ∧
    (VolumeIndicatorsService.calculate_obv [(1 : ℚ), 2] [3, 4]).getD 0 0 = 3 ∧
    (VolumeIndicatorsService.calculate_obv [(1 : ℚ), 2] [3, 4]).getD 1 0 =
      (VolumeIndicatorsService.calculate_obv [(1 : ℚ), 2] [3, 4]).getD 0 0 + 4 := by
  obtain ⟨hlen, hhead, hrec⟩ :=
    (calculate_obv_spec [(1 : ℚ), 2] [3, 4]).1 (by norm_num) (by norm_num)
  refine ⟨by simpa using hlen, by simpa using hhead, ?_⟩
  have h := hrec 1 (by norm_num) (by norm_num)
  norm_num at h
  simpa using h

lemma getD_map_range' (s n : Nat) (f : Nat → ℚ) (j : Nat) (hj : j < n) :
    (((List.range' s n).map f).getD j 0) = f (s + j) := by
  rw [List.getD_eq_getElem _ _ (by simpa using hj)]
  simp

lemma countP_le_one_filterMap_idx (f : Nat → Option Signal)
    (hf : ∀ x s, f x = some s → s.idx = x) :
    ∀ l : List Nat, l.Nodup → ∀ i : Nat,
      ((l.filterMap f).countP fun s => s.idx == i) ≤ 1 := by
  intro l
  induction l with
  | nil => simp
  | cons x xs ih =>
    intro hnd i
    have hx : x ∉ xs := (List.nodup_cons.mp hnd).1
    have hxs : xs.Nodup := (List.nodup_cons.mp hnd).2
    cases hfx : f x with
    | none => simpa [List.filterMap_cons, hfx] using ih hxs i
    | some s =>
      rw [List.filterMap_cons, hfx, List.countP_cons]
      by_cases hsi : s.idx = i
      · have hx_eq : x = i := by rw [← hf x s hfx, hsi]
        have hzero : ((xs.filterMap f).countP fun s => s.idx == i) = 0 := by
          rw [List.countP_eq_zero]
          intro t ht hti
          obtain ⟨y, hy, hfy⟩ := List.mem_filterMap.mp ht
          have hyi : y = i := by rw [← hf y t hfy]; simpa using hti
          exact hx (by rw [hx_eq, ← hyi]; exact hy)
        simp [hzero, hsi]
      · simpa [hsi] using ih hxs i

lemma mem_range'_one (n i : Nat) : i ∈ List.range' 1 (n - 1) ↔ 1 ≤ i ∧ i < n := by
  rw [List.mem_range'_1]
  omega

lemma maCross_some_char (data : List Row) (x : Nat) (s : Signal)
    (h : SignalGenerator.maCrossSignalAt data x = some s) :
    ∃ r0 r1 p20 c20 p50 c50,
      data[x - 1]? = some r0 ∧ data[x]? = some r1 ∧
      r0.sma20 = some p20 ∧ r1.sma20 = some c20 ∧
      r0.sma50 = some p50 ∧ r1.sma50 = some c50 ∧
      ((p20 ≤ p50 ∧ c50 < c20 ∧
          s = ⟨x, .buy, "Golden Cross", .strong, r1.close⟩) ∨
       (¬(p20 ≤ p50 ∧ c50 < c20) ∧ p50 ≤ p20 ∧ c20 < c50 ∧
          s = ⟨x, .sell, "Death Cross", .strong, r1.close⟩)) := by
  unfold SignalGenerator.maCrossSignalAt at h
  split at h
  next r0 r1 heq0 heq1 =>
    split at h
    next p20 c20 p50 c50 h20 h20c h50 h50c =>
      split at h
      next hgold =>
        exact ⟨r0, r1, p20, c20, p50, c50, heq0, heq1, h20, h20c, h50, h50c,
          Or.inl ⟨hgold.1, hgold.2, (Option.some.inj h).symm⟩⟩
      next hgold =>
        split at h
        next hdeath =>
          exact ⟨r0, r1, p20, c20, p50, c50, heq0, heq1, h20, h20c, h50, h50c,
            Or.inr ⟨hgold, hdeath.1, hdeath.2, (Option.some.inj h).symm⟩⟩
        next => exact Option.noConfusion h
    all_goals exact Option.noConfusion h
  all_goals exact Option.noConfusion h

lemma maCrossSignalAt_idx (data : List Row) :
    ∀ x s, SignalGenerator.maCrossSignalAt data x = some s → s.idx = x := by
  intro x s h
  obtain ⟨r0, r1, p20, c20, p50, c50, -, -, -, -, -, -, hcase⟩ :=
    maCross_some_char data x s h
  rcases hcase with ⟨-, -, rfl⟩ | ⟨-, -, -, rfl⟩ <;> rfl

/-- C3: the moving-average crossover scan emits a BUY Golden Cross at index
`i` exactly when SMA 20 crosses above SMA 50 there with all four adjacent
values defined, a SELL Death Cross exactly on the symmetric downward
crossing, emits nothing at indices where either SMA is undefined at either
endpoint, and emits at most one signal per index. -/
theorem moving_average_crossover_spec (data : List Row) (i : Nat) :
    ((∃ s ∈ SignalGenerator.moving_average_crossover data,
        s.idx = i ∧ s.dir = .buy ∧ s.name = "Golden Cross") ↔
      SignalGenerator.goldenCrossAt data i) ∧
    ((∃ s ∈ SignalGenerator.moving_average_crossover data,
        s.idx = i ∧ s.dir = .sell ∧ s.name = "Death Cross") ↔
      SignalGenerator.deathCrossAt data i) ∧
    (∀ s ∈ SignalGenerator.moving_average_crossover data,
      SignalGenerator.goldenCrossAt data s.idx ∨
      SignalGenerator.deathCrossAt data s.idx) ∧
    ((SignalGenerator.moving_average_crossover data).countP
      fun s => s.idx == i) ≤ 1 := by
  have hf := maCrossSignalAt_idx data
  have hmem : ∀ s, s ∈ SignalGenerator.moving_average_crossover data ↔
      (1 ≤ s.idx ∧ s.idx < data.length) ∧
        SignalGenerator.maCrossSignalAt data s.idx = some s := by
    intro s
    rw [SignalGenerator.moving_average_crossover, List.mem_filterMap]
    constructor
    · rintro ⟨x, hx, hfx⟩
      have hix := hf x s hfx
      subst hix
      exact ⟨(mem_range'_one _ _).mp hx, hfx⟩
    · rintro ⟨hb, hfx⟩
      exact ⟨s.idx, (mem_range'_one _ _).mpr hb, hfx⟩
  have hcase : ∀ s, s ∈ SignalGenerator.moving_average_crossover data →
      SignalGenerator.goldenCrossAt data s.idx ∨
      SignalGenerator.deathCrossAt data s.idx := by
    intro s hs
    obtain ⟨hb, hfx⟩ := (hmem s).mp hs
    obtain ⟨r0, r1, p20, c20, p50, c50, e0, e1, h20, h20c, h50, h50c, hc⟩ :=
      maCross_some_char data s.idx s hfx
    rcases hc with ⟨hle, hlt, -⟩ | ⟨-, hge, hlt, -⟩
    · exact Or.inl ⟨hb.1, hb.2, r0, r1, p20, c20, p50, c50, e0, e1,
        h20, h20c, h50, h50c, hle, hlt⟩
    · exact Or.inr ⟨hb.1, hb.2, r0, r1, p20, c20, p50, c50, e0, e1,
        h20, h20c, h50, h50c, hge, hlt⟩
  refine ⟨?_, ?_, hcase, ?_⟩
  · constructor
    · rintro ⟨s, hs, rfl, hdir, -⟩
      obtain ⟨hb, hfx⟩ := (hmem s).mp hs
      obtain ⟨r0, r1, p20, c20, p50, c50, e0, e1, h20, h20c, h50, h50c, hc⟩ :=
        maCross_some_char data s.idx s hfx
      rcases hc with ⟨hle, hlt, -⟩ | ⟨-, -, -, hseq⟩
      · exact ⟨hb.1, hb.2, r0, r1, p20, c20, p50, c50, e0, e1,
          h20, h20c, h50, h50c, hle, hlt⟩
      · rw [hseq] at hdir; simp at hdir
    · intro hg
      obtain ⟨h1, h2, r0, r1, p20, c20, p50, c50, e0, e1, s20, s20c, s50, s50c,
        hle, hlt⟩ := hg
      refine ⟨⟨i, .buy, "Golden Cross", .strong, r1.close⟩, ?_, rfl, rfl, rfl⟩
      rw [hmem]
      refine ⟨⟨h1, h2⟩, ?_⟩
      unfold SignalGenerator.maCrossSignalAt
      rw [e0, e1]
      dsimp only
      rw [s20, s20c, s50, s50c]
      dsimp only
      simp [hle, hlt]
  · constructor
    · rintro ⟨s, hs, rfl, hdir, -⟩
      obtain ⟨hb, hfx⟩ := (hmem s).mp hs
      obtain ⟨r0, r1, p20, c20, p50, c50, e0, e1, h20, h20c, h50, h50c, hc⟩ :=
        maCross_some_char data s.idx s hfx
      rcases hc with ⟨-, -, hseq⟩ | ⟨-, hge, hlt, -⟩
      · rw [hseq] at hdir; simp at hdir
      · exact ⟨hb.1, hb.2, r0, r1, p20, c20, p50, c50, e0, e1,
          h20, h20c, h50, h50c, hge, hlt⟩
    · intro hd
      obtain ⟨h1, h2, r0, r1, p20, c20, p50, c50, e0, e1, s20, s20c, s50, s50c,
        hge, hlt⟩ := hd
      refine ⟨⟨i, .sell, "Death Cross", .strong, r1.close⟩, ?_, rfl, rfl, rfl⟩
      rw [hmem]
      refine ⟨⟨h1, h2⟩, ?_⟩
      unfold SignalGenerator.maCrossSignalAt
      rw [e0, e1]
      dsimp only
      rw [s20, s20c, s50, s50c]
      dsimp only
      have hnot : ¬(p20 ≤ p50 ∧ c50 < c20) := by
        rintro ⟨-, hc⟩
        exact absurd hlt (not_lt.mpr hc.le)
      simp [hnot, hge, hlt]
  · exact countP_le_one_filterMap_idx _ hf _ (List.nodup_range' ..) i

/-- C3 witness: a concrete two-row frame whose SMA 20 crosses above SMA 50
at index 1 yields a Golden Cross BUY signal there. -/
theorem moving_average_crossover_spec_witness :
    ∃ s ∈ SignalGenerator.moving_average_crossover
      [⟨10, some 1, some 2, none, none, none⟩,
       ⟨11, some 3, some 2, none, none, none⟩],
      s.idx = 1 ∧ s.dir = .buy ∧ s.name = "Golden Cross" :=
  (moving_average_crossover_spec
    [⟨10, some 1, some 2, none, none, none⟩,
     ⟨11, some 3, some 2, none, none, none⟩] 1).1.mpr
    ⟨le_refl 1, by norm_num,
      ⟨10, some 1, some 2, none, none, none⟩,
      ⟨11, some 3, some 2, none, none, none⟩,
      1, 3, 2, 2, rfl, rfl, rfl, rfl, rfl, rfl, by norm_num, by norm_num⟩

lemma trend_some_char (data : List Row) (x : Nat) (s : Signal)
    (h : SignalGenerator.trendSignalAt data x = some s) :
    ∃ r1 adx adx_pos adx_neg prev_adx,
      data[x]? = some r1 ∧ r1.adx = some adx ∧ r1.adxPos = some adx_pos ∧
      r1.adxNeg = some adx_neg ∧ (data[x - 1]?).bind Row.adx = some prev_adx ∧
      25 < adx ∧ prev_adx ≤ 25 ∧
      ((adx_neg < adx_pos ∧ 25 < adx_pos ∧
          s = ⟨x, .buy, "Strong Uptrend Emerging", .strong, r1.close⟩) ∨
       (¬(adx_neg < adx_pos ∧ 25 < adx_pos) ∧ adx_pos < adx_neg ∧ 25 < adx_neg ∧
          s = ⟨x, .sell, "Strong Downtrend Emerging", .strong, r1.close⟩)) := by
  unfold SignalGenerator.trendSignalAt at h
  split at h
  next r1 heq1 =>
    split at h
    next adx adx_pos adx_neg ha hp hn =>
      split at h
      next hadx =>
        split at h
        next hbuy =>
          split at h
          next prev_adx hprev =>
            split at h
            next hple =>
              exact ⟨r1, adx, adx_pos, adx_neg, prev_adx, heq1, ha, hp, hn,
                hprev, hadx, hple,
                Or.inl ⟨hbuy.1, hbuy.2, (Option.some.inj h).symm⟩⟩
            next => exact Option.noConfusion h
          next => exact Option.noConfusion h
        next hbuy =>
          split at h
          next hsell =>
            split at h
            next prev_adx hprev =>
              split at h
              next hple =>
                exact ⟨r1, adx, adx_pos, adx_neg, prev_adx, heq1, ha, hp, hn,
                  hprev, hadx, hple,
                  Or.inr ⟨hbuy, hsell.1, hsell.2, (Option.some.inj h).symm⟩⟩
              next => exact Option.noConfusion h
            next => exact Option.noConfusion h
          next => exact Option.noConfusion h
      next => exact Option.noConfusion h
    all_goals exact Option.noConfusion h
  next => exact Option.noConfusion h

lemma trendSignalAt_idx (data : List Row) :
    ∀ x s, SignalGenerator.trendSignalAt data x = some s → s.idx = x := by
  intro x s h
  obtain ⟨r1, adx, adx_pos, adx_neg, prev_adx, -, -, -, -, -, -, -, hc⟩ :=
    trend_some_char data x s h
  rcases hc with ⟨-, -, rfl⟩ | ⟨-, -, -, rfl⟩ <;> rfl

/-- C4 (counterexample): in a two-row frame where ADX crosses above 25
(20 then 30, both defined) and +DI = 10 exceeds -DI = 5, the claim demands a
BUY signal at index 1, but `trend_strength_signals` emits nothing because
the code additionally requires +DI > 25. -/
theorem trend_strength_claim_counterexample :
    SignalGenerator.trend_strength_signals
      [⟨10, none, none, some 20, some 10, some 5⟩,
       ⟨11, none, none, some 30, some 10, some 5⟩] = [] ∧
    ([(⟨10, none, none, some 20, some 10, some 5⟩ : Row),
      ⟨11, none, none, some 30, some 10, some 5⟩][0]?).bind Row.adx = some 20 ∧
    ([(⟨10, none, none, some 20, some 10, some 5⟩ : Row),
      ⟨11, none, none, some 30, some 10, some 5⟩][1]?).bind Row.adx = some 30 ∧
    ([(⟨10, none, none, some 20, some 10, some 5⟩ : Row),
      ⟨11, none, none, some 30, some 10, some 5⟩][1]?).bind Row.adxPos = some 10 ∧
    ([(⟨10, none, none, some 20, some 10, some 5⟩ : Row),
      ⟨11, none, none, some 30, some 10, some 5⟩][1]?).bind Row.adxNeg = some 5 ∧
    (20 : ℚ) ≤ 25 ∧ (25 : ℚ) < 30 ∧ (5 : ℚ) < 10 := by
  refine ⟨?_, rfl, rfl, rfl, rfl, by norm_num, by norm_num, by norm_num⟩
  norm_num [SignalGenerator.trend_strength_signals, SignalGenerator.trendSignalAt,
    List.range']

/-- C4 (amended): the trend-strength rule emits a BUY Strong Uptrend
Emerging at index `i` exactly when ADX crosses above 25 (previous value
defined and ≤ 25) while +DI > -DI and additionally +DI > 25, a SELL Strong
Downtrend Emerging exactly under the symmetric condition with -DI > +DI and
-DI > 25, and emits at most one signal per index; in particular it never
fires on a bar where ADX stays above 25 without crossing. -/
theorem trend_strength_signals_spec (data : List Row) (i : Nat) :
    ((∃ s ∈ SignalGenerator.trend_strength_signals data,
        s.idx = i ∧ s.dir = .buy ∧ s.name = "Strong Uptrend Emerging") ↔
      SignalGenerator.trendBuyAt data i) ∧
    ((∃ s ∈ SignalGenerator.trend_strength_signals data,
        s.idx = i ∧ s.dir = .sell ∧ s.name = "Strong Downtrend Emerging") ↔
      SignalGenerator.trendSellAt data i) ∧
    ((SignalGenerator.trend_strength_signals data).countP
      fun s => s.idx == i) ≤ 1 := by
  have hf := trendSignalAt_idx data
  have hmem : ∀ s, s ∈ SignalGenerator.trend_strength_signals data ↔
      (1 ≤ s.idx ∧ s.idx < data.length) ∧
        SignalGenerator.trendSignalAt data s.idx = some s := by
    intro s
    rw [SignalGenerator.trend_strength_signals, List.mem_filterMap]
    constructor
    · rintro ⟨x, hx, hfx⟩
      have hix := hf x s hfx
      subst hix
      exact ⟨(mem_range'_one _ _).mp hx, hfx⟩
    · rintro ⟨hb, hfx⟩
      exact ⟨s.idx, (mem_range'_one _ _).mpr hb, hfx⟩
  refine ⟨?_, ?_, ?_⟩
  · constructor
    · rintro ⟨s, hs, rfl, hdir, -⟩
      obtain ⟨hb, hfx⟩ := (hmem s).mp hs
      obtain ⟨r1, adx, adx_pos, adx_neg, prev_adx, e1, ha, hp, hn, hprev,
        hadx, hple, hc⟩ := trend_some_char data s.idx s hfx
      rcases hc with ⟨hnp, hp25, -⟩ | ⟨-, -, -, hseq⟩
      · exact ⟨hb.1, hb.2, r1, adx, adx_pos, adx_neg, prev_adx, e1, ha, hp,
          hn, hprev, hadx, hple, hnp, hp25⟩
      · rw [hseq] at hdir; simp at hdir
    · intro hg
      obtain ⟨h1, h2, r1, adx, adx_pos, adx_neg, prev_adx, e1, ha, hp, hn,
        hprev, hadx, hple, hnp, hp25⟩ := hg
      refine ⟨⟨i, .buy, "Strong Uptrend Emerging", .strong, r1.close⟩, ?_,
        rfl, rfl, rfl⟩
      rw [hmem]
      refine ⟨⟨h1, h2⟩, ?_⟩
      unfold SignalGenerator.trendSignalAt
      rw [e1]
      dsimp only
      rw [ha, hp, hn]
      dsimp only
      rw [if_pos hadx, if_pos ⟨hnp, hp25⟩, hprev]
      dsimp only
      rw [if_pos hple]
  · constructor
    · rintro ⟨s, hs, rfl, hdir, -⟩
      obtain ⟨hb, hfx⟩ := (hmem s).mp hs
      obtain ⟨r1, adx, adx_pos, adx_neg, prev_adx, e1, ha, hp, hn, hprev,
        hadx, hple, hc⟩ := trend_some_char data s.idx s hfx
      rcases hc with ⟨-, -, hseq⟩ | ⟨-, hpn, hn25, -⟩
      · rw [hseq] at hdir; simp at hdir
      · exact ⟨hb.1, hb.2, r1, adx, adx_pos, adx_neg, prev_adx, e1, ha, hp,
          hn, hprev, hadx, hple, hpn, hn25⟩
    · intro hg
      obtain ⟨h1, h2, r1, adx, adx_pos, adx_neg, prev_adx, e1, ha, hp, hn,
        hprev, hadx, hple, hpn, hn25⟩ := hg
      refine ⟨⟨i, .sell, "Strong Downtrend Emerging", .strong, r1.close⟩, ?_,
        rfl, rfl, rfl⟩
      rw [hmem]
      refine ⟨⟨h1, h2⟩, ?_⟩
      unfold SignalGenerator.trendSignalAt
      rw [e1]
      dsimp only
      rw [ha, hp, hn]
      dsimp only
      have hnotbuy : ¬(adx_neg < adx_pos ∧ 25 < adx_pos) := by
        rintro ⟨hc, -⟩
        exact absurd hpn (lt_asymm hc)
      rw [if_pos hadx, if_neg hnotbuy, if_pos ⟨hpn, hn25⟩, hprev]
      dsimp only
      rw [if_pos hple]
  · exact countP_le_one_filterMap_idx _ hf _ (List.nodup_range' ..) i

/-- C4 witness: a concrete frame where ADX rises from 20 to 30 while
+DI = 30 > 25 > -DI = 5 yields the BUY Strong Uptrend Emerging signal at
index 1. -/
theorem trend_strength_signals_spec_witness :
    ∃ s ∈ SignalGenerator.trend_strength_signals
      [⟨10, none, none, some 20, some 30, some 5⟩,
       ⟨11, none, none, some 30, some 30, some 5⟩],
      s.idx = 1 ∧ s.dir = .buy ∧ s.name = "Strong Uptrend Emerging" :=
  (trend_strength_signals_spec
    [⟨10, none, none, some 20, some 30, some 5⟩,
     ⟨11, none, none, some 30, some 30, some 5⟩] 1).1.mpr
    ⟨le_refl 1, by norm_num,
      ⟨11, none, none, some 30, some 30, some 5⟩, 30, 30, 5, 20,
      rfl, rfl, rfl, rfl, rfl,
      by norm_num, by norm_num, by norm_num, by norm_num⟩

lemma verdict_chain_cases (b s : ℚ) :
    ((if s * (3 / 2) < b then SignalGenerator.Verdict.strongBuy
      else if s < b then SignalGenerator.Verdict.buy
      else if b * (3 / 2) < s then SignalGenerator.Verdict.strongSell
      else if b < s then SignalGenerator.Verdict.sell
      else SignalGenerator.Verdict.hold) = SignalGenerator.Verdict.strongBuy ↔
        s * (3 / 2) < b) ∧
    ((if s * (3 / 2) < b then SignalGenerator.Verdict.strongBuy
      else if s < b then SignalGenerator.Verdict.buy
      else if b * (3 / 2) < s then SignalGenerator.Verdict.strongSell
      else if b < s then SignalGenerator.Verdict.sell
      else SignalGenerator.Verdict.hold) = SignalGenerator.Verdict.buy ↔
        ¬s * (3 / 2) < b ∧ s < b) ∧
    ((if s * (3 / 2) < b then SignalGenerator.Verdict.strongBuy
      else if s < b then SignalGenerator.Verdict.buy
      else if b * (3 / 2) < s then SignalGenerator.Verdict.strongSell
      else if b < s then SignalGenerator.Verdict.sell
      else SignalGenerator.Verdict.hold) = SignalGenerator.Verdict.strongSell ↔
        ¬s * (3 / 2) < b ∧ ¬s < b ∧ b * (3 / 2) < s) ∧
    ((if s * (3 / 2) < b then SignalGenerator.Verdict.strongBuy
      else if s < b then SignalGenerator.Verdict.buy
      else if b * (3 / 2) < s then SignalGenerator.Verdict.strongSell
      else if b < s then SignalGenerator.Verdict.sell
      else SignalGenerator.Verdict.hold) = SignalGenerator.Verdict.sell ↔
        ¬s * (3 / 2) < b ∧ ¬s < b ∧ ¬b * (3 / 2) < s ∧ b < s) ∧
    ((if s * (3 / 2) < b then SignalGenerator.Verdict.strongBuy
      else if s < b then SignalGenerator.Verdict.buy
      else if b * (3 / 2) < s then SignalGenerator.Verdict.strongSell
      else if b < s then SignalGenerator.Verdict.sell
      else SignalGenerator.Verdict.hold) = SignalGenerator.Verdict.hold ↔
        ¬s * (3 / 2) < b ∧ ¬s < b ∧ ¬b * (3 / 2) < s ∧ ¬b < s) := by
  by_cases h1 : s * (3 / 2) < b <;> by_cases h2 : s < b <;>
    by_cases h3 : b * (3 / 2) < s <;> by_cases h4 : b < s <;>
    simp [h1, h2, h3, h4]

/-- C6: the recommendation scores the ten most recent signals with the
strength weights (STRONG 2, MEDIUM 1, WEAK 1/2) summed per direction, the
verdict follows the threshold chain STRONG BUY / BUY / STRONG SELL / SELL /
HOLD, the confidence is `|buy - sell| / max (buy + sell) 1 * 100`, and the
empty signal list yields HOLD with confidence 0. -/
theorem get_current_recommendation_spec (signals : List RecSignal) :
    (SignalGenerator.get_current_recommendation signals).buyScore =
      SignalGenerator.buy_score (SignalGenerator.get_latest_signals signals 10) ∧
    (SignalGenerator.get_current_recommendation signals).sellScore =
      SignalGenerator.sell_score (SignalGenerator.get_latest_signals signals 10) ∧
    ((SignalGenerator.get_current_recommendation signals).verdict =
        SignalGenerator.Verdict.strongBuy ↔
      SignalGenerator.sell_score (SignalGenerator.get_latest_signals signals 10) *
          (3 / 2) <
        SignalGenerator.buy_score (SignalGenerator.get_latest_signals signals 10)) ∧
    ((SignalGenerator.get_current_recommendation signals).verdict =
        SignalGenerator.Verdict.buy ↔
      ¬SignalGenerator.sell_score (SignalGenerator.get_latest_signals signals 10) *
          (3 / 2) <
        SignalGenerator.buy_score (SignalGenerator.get_latest_signals signals 10) ∧
      SignalGenerator.sell_score (SignalGenerator.get_latest_signals signals 10) <
        SignalGenerator.buy_score (SignalGenerator.get_latest_signals signals 10)) ∧
    ((SignalGenerator.get_current_recommendation signals).verdict =
        SignalGenerator.Verdict.strongSell ↔
      ¬SignalGenerator.sell_score (SignalGenerator.get_latest_signals signals 10) *
          (3 / 2) <
        SignalGenerator.buy_score (SignalGenerator.get_latest_signals signals 10) ∧
      ¬SignalGenerator.sell_score (SignalGenerator.get_latest_signals signals 10) <
        SignalGenerator.buy_score (SignalGenerator.get_latest_signals signals 10) ∧
      SignalGenerator.buy_score (SignalGenerator.get_latest_signals signals 10) *
          (3 / 2) <
        SignalGenerator.sell_score (SignalGenerator.get_latest_signals signals 10)) ∧
    ((SignalGenerator.get_current_recommendation signals).verdict =
        SignalGenerator.Verdict.sell ↔
      ¬SignalGenerator.sell_score (SignalGenerator.get_latest_signals signals 10) *
          (3 / 2) <
        SignalGenerator.buy_score (SignalGenerator.get_latest_signals signals 10) ∧
      ¬SignalGenerator.sell_score (SignalGenerator.get_latest_signals signals 10) <
        SignalGenerator.buy_score (SignalGenerator.get_latest_signals signals 10) ∧
      ¬SignalGenerator.buy_score (SignalGenerator.get_latest_signals signals 10) *
          (3 / 2) <
        SignalGenerator.sell_score (SignalGenerator.get_latest_signals signals 10) ∧
      SignalGenerator.buy_score (SignalGenerator.get_latest_signals signals 10) <
        SignalGenerator.sell_score (SignalGenerator.get_latest_signals signals 10)) ∧
    ((SignalGenerator.get_current_recommendation signals).verdict =
        SignalGenerator.Verdict.hold ↔
      ¬SignalGenerator.sell_score (SignalGenerator.get_latest_signals signals 10) *
          (3 / 2) <
        SignalGenerator.buy_score (SignalGenerator.get_latest_signals signals 10) ∧
      ¬SignalGenerator.sell_score (SignalGenerator.get_latest_signals signals 10) <
        SignalGenerator.buy_score (SignalGenerator.get_latest_signals signals 10) ∧
      ¬SignalGenerator.buy_score (SignalGenerator.get_latest_signals signals 10) *
          (3 / 2) <
        SignalGenerator.sell_score (SignalGenerator.get_latest_signals signals 10) ∧
      ¬SignalGenerator.buy_score (SignalGenerator.get_latest_signals signals 10) <
        SignalGenerator.sell_score (SignalGenerator.get_latest_signals signals 10)) ∧
    (SignalGenerator.get_current_recommendation signals).confidence =
      |SignalGenerator.buy_score (SignalGenerator.get_latest_signals signals 10) -
        SignalGenerator.sell_score (SignalGenerator.get_latest_signals signals 10)| /
      max (SignalGenerator.buy_score (SignalGenerator.get_latest_signals signals 10) +
        SignalGenerator.sell_score (SignalGenerator.get_latest_signals signals 10)) 1 *
      100 ∧
    (SignalGenerator.get_current_recommendation []).verdict =
      SignalGenerator.Verdict.hold ∧
    (SignalGenerator.get_current_recommendation []).confidence = 0 := by
  obtain ⟨c1, c2, c3, c4, c5⟩ := verdict_chain_cases
    (SignalGenerator.buy_score (SignalGenerator.get_latest_signals signals 10))
    (SignalGenerator.sell_score (SignalGenerator.get_latest_signals signals 10))
  refine ⟨rfl, rfl, c1, c2, c3, c4, c5, rfl, ?_, ?_⟩
  · norm_num [SignalGenerator.get_current_recommendation,
      SignalGenerator.get_latest_signals, SignalGenerator.buy_score,
      SignalGenerator.sell_score, List.mergeSort]
  · norm_num [SignalGenerator.get_current_recommendation,
      SignalGenerator.get_latest_signals, SignalGenerator.buy_score,
      SignalGenerator.sell_score, List.mergeSort]

/-- C2 (counterexample): with window 1 and the rising typical-price series
built from highs = lows = closes = `[1, 2]`, volumes `[1, 1]`, the negative
money-flow sum over the window is zero, and `calculate_mfi` returns 100
there — not the claimed neutral 0. -/
theorem calculate_mfi_zero_negative_counterexample :
    (windowSlice
      (VolumeIndicatorsService.negative_mf
        (VolumeIndicatorsService.mfiTypical [(1 : ℚ), 2] [1, 2] [1, 2]) [1, 1])
      0 1).sum = 0 ∧
    VolumeIndicatorsService.calculate_mfi [(1 : ℚ), 2] [1, 2] [1, 2] [1, 1] 1 =
      [100] ∧
    (100 : ℚ) ≠ 0 := by
  refine ⟨?_, ?_, by norm_num⟩
  · norm_num [VolumeIndicatorsService.negative_mf,
      VolumeIndicatorsService.mfiTypical, List.zipWith3, windowSlice,
      List.range']
  · norm_num [VolumeIndicatorsService.calculate_mfi,
      VolumeIndicatorsService.negative_mf, VolumeIndicatorsService.positive_mf,
      VolumeIndicatorsService.mfiTypical, List.zipWith3, windowSlice,
      List.range']

/-- C2 (amended): whenever a window denominator is zero the indicator
returns its guard constant instead of dividing by zero — Stochastic raw `%K`
returns 50 and Williams %R returns -50 when the window's high/low range is
zero, CCI returns 0 when the window mean absolute deviation is zero, and MFI
returns 100 (not 0) when the negative money-flow sum over the window is
zero. -/
theorem indicator_zero_denominator_spec :
    (∀ (prices : List ℚ) (window i : Nat), window - 1 ≤ i → i < prices.length →
      listMax (windowSlice prices i window) - listMin (windowSlice prices i window) = 0 →
      (MomentumIndicatorsService.stoch_k_raw prices window).getD (i - (window - 1)) 0
        = 50) ∧
    (∀ (highs lows closes : List ℚ) (window i : Nat),
      window ≤ closes.length → window - 1 ≤ i → i < closes.length →
      listMax (windowSlice highs i window) - listMin (windowSlice lows i window) = 0 →
      (MomentumIndicatorsService.calculate_williams_r highs lows closes window).getD
        (i - (window - 1)) 0 = -50) ∧
    (∀ (highs lows closes : List ℚ) (window i : Nat),
      window ≤ closes.length → window - 1 ≤ i → i < closes.length →
      MomentumIndicatorsService.cci_mad highs lows closes window i = 0 →
      (MomentumIndicatorsService.calculate_cci highs lows closes window).getD
        (i - (window - 1)) 0 = 0) ∧
    (∀ (highs lows closes volumes : List ℚ) (window i : Nat),
      window + 1 ≤ closes.length → window - 1 ≤ i →
      i < (VolumeIndicatorsService.positive_mf
            (VolumeIndicatorsService.mfiTypical highs lows closes) volumes).length →
      (windowSlice (VolumeIndicatorsService.negative_mf
        (VolumeIndicatorsService.mfiTypical highs lows closes) volumes) i window).sum = 0 →
      (VolumeIndicatorsService.calculate_mfi highs lows closes volumes window).getD
        (i - (window - 1)) 0 = 100) := by
  refine ⟨?_, ?_, ?_, ?_⟩
  · intro prices window i hwi hip hrange
    rw [MomentumIndicatorsService.stoch_k_raw,
      getD_map_range' _ _ _ _ (by omega),
      show window - 1 + (i - (window - 1)) = i by omega]
    simp [hrange]
  · intro highs lows closes window i hw hwi hic hrange
    rw [MomentumIndicatorsService.calculate_williams_r, if_neg (by omega),
      getD_map_range' _ _ _ _ (by omega),
      show window - 1 + (i - (window - 1)) = i by omega]
    simp [hrange]
  · intro highs lows closes window i hw hwi hic hmad
    rw [MomentumIndicatorsService.calculate_cci, if_neg (by omega),
      getD_map_range' _ _ _ _ (by omega),
      show window - 1 + (i - (window - 1)) = i by omega]
    simp [hmad]
  · intro highs lows closes volumes window i hw hwi hpos hneg
    rw [VolumeIndicatorsService.calculate_mfi, if_neg (by omega),
      getD_map_range' _ _ _ _ (by omega),
      show window - 1 + (i - (window - 1)) = i by omega]
    simp [hneg]

/-- C2 witness: concrete instances of all four guards — constant prices
`[5, 5]` with window 2 give Stochastic %K 50, Williams %R -50 and CCI 0, and
the rising series of the MFI counterexample gives MFI 100. -/
theorem indicator_zero_denominator_spec_witness :
    (MomentumIndicatorsService.stoch_k_raw [(5 : ℚ), 5] 2).getD 0 0 = 50 ∧
    (MomentumIndicatorsService.calculate_williams_r [(5 : ℚ), 5] [5, 5] [5, 5] 2).getD
      0 0 = -50 ∧
    (MomentumIndicatorsService.calculate_cci [(5 : ℚ), 5] [5, 5] [5, 5] 2).getD
      0 0 = 0 ∧
    (VolumeIndicatorsService.calculate_mfi [(1 : ℚ), 2] [1, 2] [1, 2] [1, 1] 1).getD
      0 0 = 100 := by
  refine ⟨indicator_zero_denominator_spec.1 [(5 : ℚ), 5] 2 1 (by norm_num)
      (by norm_num) ?_,
    indicator_zero_denominator_spec.2.1 [(5 : ℚ), 5] [5, 5] [5, 5] 2 1
      (by norm_num) (by norm_num) (by norm_num) ?_,
    indicator_zero_denominator_spec.2.2.1 [(5 : ℚ), 5] [5, 5] [5, 5] 2 1
      (by norm_num) (by norm_num) (by norm_num) ?_,
    indicator_zero_denominator_spec.2.2.2 [(1 : ℚ), 2] [1, 2] [1, 2] [1, 1] 1 0
      (by norm_num) (by norm_num) ?_ ?_⟩
  · norm_num [windowSlice, listMin, listMax]
  · norm_num [windowSlice, listMin, listMax]
  · norm_num [MomentumIndicatorsService.cci_mad, MomentumIndicatorsService.cci_sma,
      MomentumIndicatorsService.typicalAt, List.range']
  · norm_num [VolumeIndicatorsService.positive_mf,
      VolumeIndicatorsService.mfiTypical, List.zipWith3, List.range']
  · norm_num [VolumeIndicatorsService.negative_mf,
      VolumeIndicatorsService.mfiTypical, List.zipWith3, windowSlice,
      List.range']

/-- C1 (counterexample): for the strictly rising price list `[1, 2]` the
rolling loss average over the RSI window is zero at position 1, yet
`calculate_rsi` returns 100 there, not the claimed neutral 50 — a zero loss
average with a positive gain average yields `gain/0 = +inf` in pandas and
hence RSI `100 - 100/(1+inf) = 100`, which the NaN fill leaves untouched. -/
theorem calculate_rsi_zero_loss_counterexample :
    (rollingMean1 (IndicatorsService.rsi_loss [(1 : ℚ), 2]) 14).getD 1 0 = 0 ∧
    (IndicatorsService.calculate_rsi [(1 : ℚ), 2] 14).1.getD 1 .nan = .num 100 ∧
    PFloat.num 100 ≠ PFloat.num 50 := by
  refine ⟨?_, ?_, by simp⟩
  · norm_num [IndicatorsService.rsi_loss, IndicatorsService.priceDiff,
      rollingMean1, windowSlice, listMean, List.range_succ]
  · norm_num [IndicatorsService.calculate_rsi, IndicatorsService.rsi_raw,
      IndicatorsService.rs_list, IndicatorsService.rsi_gain,
      IndicatorsService.rsi_loss, IndicatorsService.priceDiff,
      rollingMean1, windowSlice, listMean, List.range_succ,
      PFloat.add, PFloat.sub, PFloat.div, PFloat.neg, PFloat.fillna]

/-- C1 (amended): for every price list, at every position where the rolling
loss average over the RSI window is zero, `calculate_rsi` returns 50 when the
rolling gain average is also zero (the NaN fill of the 0/0 case) and 100 when
the gain average is positive (the `gain/0 = +inf` case); moreover no position
of the returned RSI list is NaN. -/
theorem calculate_rsi_zero_loss_spec (prices : List ℚ) (window : Nat) :
    (∀ i, i < prices.length →
      (rollingMean1 (IndicatorsService.rsi_loss prices) window).getD i 0 = 0 →
      (IndicatorsService.calculate_rsi prices window).1.getD i .nan =
        (if (rollingMean1 (IndicatorsService.rsi_gain prices) window).getD i 0 = 0
         then .num 50 else .num 100)) ∧
    ∀ x ∈ (IndicatorsService.calculate_rsi prices window).1, x.isNan = false := by
  constructor
  · intro i hi hL
    rw [calculate_rsi_entry prices window i hi,
      rsi_entry_eval _ _ (rollingMean1_nonneg window i (rsi_gain_nonneg prices))
        (rollingMean1_nonneg window i (rsi_loss_nonneg prices)), if_pos hL]
  · intro x hx
    obtain ⟨i, hlen, rfl⟩ := List.mem_iff_getElem.mp hx
    have hi : i < prices.length := by
      simpa [calculate_rsi_length] using hlen
    rw [← List.getD_eq_getElem _ PFloat.nan hlen,
      calculate_rsi_entry prices window i hi,
      rsi_entry_eval _ _ (rollingMean1_nonneg window i (rsi_gain_nonneg prices))
        (rollingMean1_nonneg window i (rsi_loss_nonneg prices))]
    split
    · split <;> simp [PFloat.isNan]
    · simp [PFloat.isNan]

/-- C1 witness: instantiating the amended statement on the concrete price
list `[1, 2]` with window 14 at position 1, where the loss average is zero
and the gain average is `1/2`, gives RSI 100. -/
theorem calculate_rsi_zero_loss_spec_witness :
    (IndicatorsService.calculate_rsi [(1 : ℚ), 2] 14).1.getD 1 .nan = .num 100 := by
  have h := (calculate_rsi_zero_loss_spec [(1 : ℚ), 2] 14).1 1 (by norm_num)
    (by norm_num [IndicatorsService.rsi_loss, IndicatorsService.priceDiff,
      rollingMean1, windowSlice, listMean, List.range_succ])
  rw [h, if_neg]
  norm_num [IndicatorsService.rsi_gain, IndicatorsService.priceDiff,
    rollingMean1, windowSlice, listMean, List.range_succ]

lemma lookup_mem {ps : List (String × Position)} {k : String} {v : Position}
    (h : ps.lookup k = some v) : (k, v) ∈ ps := by
  induction ps with
  | nil => simp at h
  | cons e es ih =>
    obtain ⟨k', v'⟩ := e
    rw [List.lookup_cons] at h
    cases hbeq : k == k' with
    | true =>
      simp only [hbeq] at h
      obtain rfl := Option.some.inj h
      exact (eq_of_beq hbeq) ▸ List.mem_cons_self _ _
    | false =>
      simp only [hbeq] at h
      exact List.mem_cons_of_mem _ (ih h)

lemma lookup_updatePos {ps : List (String × Position)} {sym : String}
    {pos : Position} (h : ps.lookup sym = some pos) (p : Position) :
    (updatePos ps sym p).lookup sym = some p := by
  induction ps with
  | nil => simp at h
  | cons e es ih =>
    obtain ⟨k', v'⟩ := e
    by_cases hk : k' = sym
    · subst hk
      simp [updatePos, List.lookup_cons]
    · have hbeq : (sym == k') = false :=
        beq_eq_false_iff_ne.mpr fun hh => hk hh.symm
      rw [List.lookup_cons, hbeq] at h
      rw [show updatePos ((k', v') :: es) sym p =
        (k', v') :: updatePos es sym p by simp [updatePos, hk]]
      rw [List.lookup_cons, hbeq]
      exact ih h

lemma lookup_erasePos (ps : List (String × Position)) (sym : String) :
    (erasePos ps sym).lookup sym = none := by
  induction ps with
  | nil => simp [erasePos]
  | cons e es ih =>
    obtain ⟨k', v'⟩ := e
    by_cases hk : k' = sym
    · subst hk
      simpa [erasePos, List.filter_cons] using ih
    · have hne : (sym == k') = false := by
        simpa using fun hh => hk hh.symm
      simp only [erasePos, List.filter_cons] at ih ⊢
      rw [show ((k', v').1 != sym) = true by simpa using hk]
      simpa [List.lookup_cons, hne] using ih

lemma mem_updatePos {ps : List (String × Position)} {sym : String}
    {p : Position} {e : String × Position} (h : e ∈ updatePos ps sym p) :
    e.2 = p ∨ e ∈ ps := by
  simp only [updatePos, List.mem_map] at h
  obtain ⟨e', he', rfl⟩ := h
  by_cases hk : e'.1 = sym
  · simp [hk]
  · simp only [if_neg hk]
    exact Or.inr he'

lemma lookup_append_self (es : List (String × Position)) (sym : String)
    (p : Position) (h : es.lookup sym = none) :
    (es ++ [(sym, p)]).lookup sym = some p := by
  induction es with
  | nil => simp [List.lookup_cons]
  | cons e es ih =>
    obtain ⟨k', v'⟩ := e
    rw [List.lookup_cons] at h
    cases hbeq : sym == k' with
    | true => rw [hbeq] at h; exact Option.noConfusion h
    | false =>
      rw [hbeq] at h
      rw [List.cons_append, List.lookup_cons, hbeq]
      exact ih h

/-- C7: adding a lot to an existing position sets the average price to the
quantity-weighted mean and sums the quantities; a fresh symbol starts at the
purchase price; a successful sell reports `profit_loss = (sale - avg) * qty`
and the percentage relative to the average price while decrementing the
quantity; concretely 10 shares at 150 plus 10 at 170 average to 160 with
quantity 20, and selling 5 at 200 then yields profit 200, 25 percent, and
15 remaining shares. -/
theorem portfolio_lot_arithmetic_spec :
    (∀ (led : Ledger) (sym : String) (q1 p1 : ℚ) (d1 : String) (pos : Position),
      led.positions.lookup sym.toUpper = some pos →
      pos.quantity + q1 ≠ 0 →
      (PortfolioTracker.add_position led sym q1 p1 d1).positions.lookup
        sym.toUpper =
        some ⟨pos.quantity + q1,
          (pos.quantity * pos.avg_price + q1 * p1) / (pos.quantity + q1),
          pos.first_purchase_date⟩) ∧
    (∀ (led : Ledger) (sym : String) (q1 p1 : ℚ) (d1 : String),
      led.positions.lookup sym.toUpper = none →
      (PortfolioTracker.add_position led sym q1 p1 d1).positions.lookup
        sym.toUpper = some ⟨q1, p1, d1⟩) ∧
    (∀ (led : Ledger) (sym : String) (q sp : ℚ) (d : String) (pos : Position),
      led.positions.lookup sym.toUpper = some pos →
      ¬pos.quantity < q → pos.avg_price ≠ 0 →
      (PortfolioTracker.remove_position led sym q sp d).2 =
        .ok ⟨.sell, sym.toUpper, q, sp, d, q * sp,
          some ((sp - pos.avg_price) * q),
          some ((sp - pos.avg_price) / pos.avg_price * 100)⟩ ∧
      (pos.quantity - q ≠ 0 →
        ((PortfolioTracker.remove_position led sym q sp d).1).positions.lookup
          sym.toUpper =
          some ⟨pos.quantity - q, pos.avg_price, pos.first_purchase_date⟩)) ∧
    ((PortfolioTracker.add_position
        (PortfolioTracker.add_position ⟨[], []⟩ "AAPL" 10 150 "d1")
        "AAPL" 10 170 "d2").positions.lookup "AAPL".toUpper =
      some ⟨20, 160, "d1"⟩ ∧
     (PortfolioTracker.remove_position
        (PortfolioTracker.add_position
          (PortfolioTracker.add_position ⟨[], []⟩ "AAPL" 10 150 "d1")
          "AAPL" 10 170 "d2") "AAPL" 5 200 "d3").2 =
      .ok ⟨.sell, "AAPL".toUpper, 5, 200, "d3", 1000, some 200, some 25⟩ ∧
     ((PortfolioTracker.remove_position
        (PortfolioTracker.add_position
          (PortfolioTracker.add_position ⟨[], []⟩ "AAPL" 10 150 "d1")
          "AAPL" 10 170 "d2") "AAPL" 5 200 "d3").1).positions.lookup
        "AAPL".toUpper = some ⟨15, 160, "d1"⟩) := by
  have hadd : ∀ (led : Ledger) (sym : String) (q1 p1 : ℚ) (d1 : String)
      (pos : Position),
      led.positions.lookup sym.toUpper = some pos →
      (PortfolioTracker.add_position led sym q1 p1 d1).positions.lookup
        sym.toUpper =
        some ⟨pos.quantity + q1,
          (pos.quantity * pos.avg_price + q1 * p1) / (pos.quantity + q1),
          pos.first_purchase_date⟩ := by
    intro led sym q1 p1 d1 pos hl
    unfold PortfolioTracker.add_position
    dsimp only
    rw [hl]
    exact lookup_updatePos hl _
  have hfresh : ∀ (led : Ledger) (sym : String) (q1 p1 : ℚ) (d1 : String),
      led.positions.lookup sym.toUpper = none →
      (PortfolioTracker.add_position led sym q1 p1 d1).positions.lookup
        sym.toUpper = some ⟨q1, p1, d1⟩ := by
    intro led sym q1 p1 d1 hl
    unfold PortfolioTracker.add_position
    dsimp only
    rw [hl]
    dsimp only
    exact lookup_append_self _ _ _ hl
  have hsell : ∀ (led : Ledger) (sym : String) (q sp : ℚ) (d : String)
      (pos : Position),
      led.positions.lookup sym.toUpper = some pos →
      ¬pos.quantity < q → pos.avg_price ≠ 0 →
      (PortfolioTracker.remove_position led sym q sp d).2 =
        .ok ⟨.sell, sym.toUpper, q, sp, d, q * sp,
          some ((sp - pos.avg_price) * q),
          some ((sp - pos.avg_price) / pos.avg_price * 100)⟩ ∧
      (pos.quantity - q ≠ 0 →
        ((PortfolioTracker.remove_position led sym q sp d).1).positions.lookup
          sym.toUpper =
          some ⟨pos.quantity - q, pos.avg_price, pos.first_purchase_date⟩) := by
    intro led sym q sp d pos hl hq havg
    unfold PortfolioTracker.remove_position
    dsimp only
    rw [hl]
    dsimp only
    rw [if_neg hq, if_neg havg]
    refine ⟨rfl, fun hnz => ?_⟩
    dsimp only
    rw [if_neg hnz]
    exact lookup_updatePos hl _
  refine ⟨fun led sym q1 p1 d1 pos hl _ => hadd led sym q1 p1 d1 pos hl,
    hfresh, hsell, ?_, ?_, ?_⟩
  · have h1 := hfresh ⟨[], []⟩ "AAPL" 10 150 "d1" rfl
    have h2 := hadd _ "AAPL" 10 170 "d2" _ h1
    rw [h2]
    norm_num
  · have h1 := hfresh ⟨[], []⟩ "AAPL" 10 150 "d1" rfl
    have h2 := hadd _ "AAPL" 10 170 "d2" _ h1
    have h2' : (PortfolioTracker.add_position
        (PortfolioTracker.add_position ⟨[], []⟩ "AAPL" 10 150 "d1")
        "AAPL" 10 170 "d2").positions.lookup "AAPL".toUpper =
        some ⟨20, 160, "d1"⟩ := by rw [h2]; norm_num
    have h3 := (hsell _ "AAPL" 5 200 "d3" _ h2' (by norm_num) (by norm_num)).1
    rw [h3]
    norm_num
  · have h1 := hfresh ⟨[], []⟩ "AAPL" 10 150 "d1" rfl
    have h2 := hadd _ "AAPL" 10 170 "d2" _ h1
    have h2' : (PortfolioTracker.add_position
        (PortfolioTracker.add_position ⟨[], []⟩ "AAPL" 10 150 "d1")
        "AAPL" 10 170 "d2").positions.lookup "AAPL".toUpper =
        some ⟨20, 160, "d1"⟩ := by rw [h2]; norm_num
    have h3 := (hsell _ "AAPL" 5 200 "d3" _ h2' (by norm_num) (by norm_num)).2
      (by norm_num)
    rw [h3]
    norm_num

/-- C7 witness: applying the lot-average formula to a held position of 10
shares at 150 and a new lot of 10 at 170 gives the averaged position. -/
theorem portfolio_lot_arithmetic_spec_witness :
    (PortfolioTracker.add_position
      ⟨[("AAPL".toUpper, ⟨10, 150, "d1"⟩)], []⟩ "AAPL" 10 170 "d2").positions.lookup
      "AAPL".toUpper =
      some ⟨10 + 10, ((10 : ℚ) * 150 + 10 * 170) / (10 + 10), "d1"⟩ :=
  portfolio_lot_arithmetic_spec.1
    ⟨[("AAPL".toUpper, ⟨10, 150, "d1"⟩)], []⟩ "AAPL" 10 170 "d2"
    ⟨10, 150, "d1"⟩ (by simp [List.lookup_cons]) (by norm_num)

/-- C8: selling a symbol that is not held fails with the NoPosition error,
and selling more shares than the position holds fails with the
InsufficientShares error; in both cases the returned ledger is the input
unchanged — no position modified or removed, no transaction appended. -/
theorem remove_position_failure_spec :
    (∀ (led : Ledger) (sym : String) (q sp : ℚ) (d : String),
      led.positions.lookup sym.toUpper = none →
      PortfolioTracker.remove_position led sym q sp d =
        (led, .error .noPosition)) ∧
    (∀ (led : Ledger) (sym : String) (q sp : ℚ) (d : String) (pos : Position),
      led.positions.lookup sym.toUpper = some pos →
      pos.quantity < q →
      PortfolioTracker.remove_position led sym q sp d =
        (led, .error .insufficientShares)) := by
  constructor
  · intro led sym q sp d hl
    unfold PortfolioTracker.remove_position
    dsimp only
    rw [hl]
  · intro led sym q sp d pos hl hlt
    unfold PortfolioTracker.remove_position
    dsimp only
    rw [hl]
    dsimp only
    rw [if_pos hlt]

/-- C8 witness: selling from the empty ledger reports NoPosition, and
selling 5 shares from a 1-share position reports InsufficientShares, each
returning the ledger unchanged. -/
theorem remove_position_failure_spec_witness :
    PortfolioTracker.remove_position ⟨[], []⟩ "AAPL" 5 10 "d" =
      (⟨[], []⟩, .error .noPosition) ∧
    PortfolioTracker.remove_position
      ⟨[("AAPL".toUpper, ⟨1, 150, "d0"⟩)], []⟩ "AAPL" 5 10 "d" =
      (⟨[("AAPL".toUpper, ⟨1, 150, "d0"⟩)], []⟩, .error .insufficientShares) :=
  ⟨remove_position_failure_spec.1 ⟨[], []⟩ "AAPL" 5 10 "d" rfl,
   remove_position_failure_spec.2 ⟨[("AAPL".toUpper, ⟨1, 150, "d0"⟩)], []⟩
     "AAPL" 5 10 "d" ⟨1, 150, "d0"⟩ (by simp [List.lookup_cons])
     (by norm_num)⟩

/-- C9: starting from a ledger whose position quantities are all positive,
any sequence of buys and sells with positive share counts keeps every
quantity positive (in particular nonnegative) after every operation, and a
successful sell of the full quantity removes the position from the ledger
(success requires a nonzero average price: at a zero average price the sell
raises ZeroDivisionError before mutating, leaving the position in
place). -/
theorem portfolio_quantity_invariant_spec :
    (∀ (led : Ledger) (op : PortfolioTracker.PortfolioOp),
      PortfolioTracker.posQtyPos led → PortfolioTracker.opQtyPos op →
      PortfolioTracker.posQtyPos (PortfolioTracker.applyOp led op)) ∧
    (∀ (ops : List PortfolioTracker.PortfolioOp) (led : Ledger),
      PortfolioTracker.posQtyPos led →
      (∀ op ∈ ops, PortfolioTracker.opQtyPos op) →
      PortfolioTracker.posQtyPos (PortfolioTracker.runOps led ops)) ∧
    (∀ (led : Ledger) (sym : String) (q sp : ℚ) (d : String) (pos : Position),
      led.positions.lookup sym.toUpper = some pos →
      pos.quantity = q → pos.avg_price ≠ 0 →
      ((PortfolioTracker.remove_position led sym q sp d).1).positions.lookup
        sym.toUpper = none) := by
  have hstep : ∀ (led : Ledger) (op : PortfolioTracker.PortfolioOp),
      PortfolioTracker.posQtyPos led → PortfolioTracker.opQtyPos op →
      PortfolioTracker.posQtyPos (PortfolioTracker.applyOp led op) := by
    intro led op hpos hop
    cases op with
    | add sym q p d =>
      have hq : 0 < q := hop
      unfold PortfolioTracker.applyOp PortfolioTracker.add_position
      dsimp only
      cases hl : led.positions.lookup sym.toUpper with
      | some pos =>
        dsimp only
        intro e he
        rcases mem_updatePos he with h2 | h2
        · rw [h2]
          have h0 : 0 < pos.quantity := hpos _ (lookup_mem hl)
          dsimp only
          linarith
        · exact hpos e h2
      | none =>
        dsimp only
        intro e he
        rcases List.mem_append.mp he with h2 | h2
        · exact hpos e h2
        · rw [List.mem_singleton.mp h2]
          exact hq
    | remove sym q p d =>
      have hq : 0 < q := hop
      unfold PortfolioTracker.applyOp PortfolioTracker.remove_position
      dsimp only
      cases hl : led.positions.lookup sym.toUpper with
      | none => exact hpos
      | some pos =>
        dsimp only
        by_cases hlt : pos.quantity < q
        · rw [if_pos hlt]; exact hpos
        · rw [if_neg hlt]
          by_cases havg : pos.avg_price = 0
          · rw [if_pos havg]; exact hpos
          rw [if_neg havg]
          dsimp only
          by_cases hz : pos.quantity - q = 0
          · rw [if_pos hz]
            intro e he
            exact hpos e (List.mem_of_mem_filter he)
          · rw [if_neg hz]
            intro e he
            rcases mem_updatePos he with h2 | h2
            · rw [h2]
              dsimp only
              have hle : q ≤ pos.quantity := not_lt.mp hlt
              have : q < pos.quantity :=
                lt_of_le_of_ne hle fun hh => hz (by rw [← hh]; ring)
              linarith
            · exact hpos e h2
  refine ⟨hstep, ?_, ?_⟩
  · intro ops
    induction ops with
    | nil => intro led h _; simpa [PortfolioTracker.runOps] using h
    | cons op ops ih =>
      intro led h hv
      rw [PortfolioTracker.runOps]
      exact ih _ (hstep led op h (hv op (List.mem_cons_self _ _)))
        fun o ho => hv o (List.mem_cons_of_mem _ ho)
  · intro led sym q sp d pos hl hq havg
    subst hq
    unfold PortfolioTracker.remove_position
    dsimp only
    rw [hl]
    dsimp only
    rw [if_neg (lt_irrefl _), if_neg havg, if_pos (sub_self _)]
    exact lookup_erasePos _ _

/-- C9 witness: buying 3 more shares of a held 5-share position keeps all
quantities positive, and selling the full 5 shares removes the position. -/
theorem portfolio_quantity_invariant_spec_witness :
    PortfolioTracker.posQtyPos
      (PortfolioTracker.applyOp ⟨[("AAPL".toUpper, ⟨5, 1, "d"⟩)], []⟩
        (.add "AAPL" 3 2 "d2")) ∧
    ((PortfolioTracker.remove_position ⟨[("AAPL".toUpper, ⟨5, 1, "d"⟩)], []⟩
        "AAPL" 5 2 "d3").1).positions.lookup "AAPL".toUpper = none :=
  ⟨portfolio_quantity_invariant_spec.1 ⟨[("AAPL".toUpper, ⟨5, 1, "d"⟩)], []⟩
      (.add "AAPL" 3 2 "d2")
      (by intro e he; rw [List.mem_singleton.mp he]; norm_num)
      (by norm_num [PortfolioTracker.opQtyPos]),
   portfolio_quantity_invariant_spec.2.2 ⟨[("AAPL".toUpper, ⟨5, 1, "d"⟩)], []⟩
      "AAPL" 5 2 "d3" ⟨5, 1, "d"⟩ (by simp [List.lookup_cons]) rfl
      (by norm_num)⟩

/-- C5 (code violation): on the single-price series `[10]` the rolling
sample standard deviation is undefined (NaN) at index 0, and the
`fillna(0)` of `calculate_bollinger_bands` silently turns both bands into
the number 0 while the middle band is 10 — so the returned columns have
upper = 0 < mid = 10, breaking the claimed upper ≥ mid ≥ lower ordering,
whatever function computes the square root. -/
theorem bollinger_fillna_zero_violation (sqrtFn : ℚ → ℚ) :
    (IndicatorsService.calculate_bollinger_bands sqrtFn [10] 20 2).1 =
      [.num 0] ∧
    (IndicatorsService.calculate_bollinger_bands sqrtFn [10] 20 2).2.1 =
      [(10 : ℚ)] ∧
    (IndicatorsService.calculate_bollinger_bands sqrtFn [10] 20 2).2.2 =
      [.num 0] ∧
    (0 : ℚ) < 10 := by
  refine ⟨?_, ?_, ?_, by norm_num⟩ <;>
    norm_num [IndicatorsService.calculate_bollinger_bands,
      IndicatorsService.rollingStd1, rollingMean1, windowSlice, listMean,
      List.range_succ, PFloat.add, PFloat.sub, PFloat.neg, PFloat.mul,
      PFloat.fillna]
